import Mathlib

/-!
Verification development for the SEO audit-comparison dashboard
(`app/main.py`, `app/utils/data_loader.py`, `app/utils/visualizations.py`,
`app/utils/ui/comparison_tab.py`, `app/utils/ui/semrush_tab.py`).

The tabular data handled by the program is embedded shallowly:

* a SemRush audit export (`pandas.DataFrame`) becomes `SemrushTable`
  (issue columns plus one row per crawled page, each row carrying its
  `Page URL` identity and one `Cell` per issue column);
* a mapping-table row becomes `MappingRow`; the nullable
  `Issue category - SemRush` cell is an `Option String` (`none` models a
  missing / NaN cell);
* a Screaming Frog issues row before percent conversion becomes `SFRowRaw`.

Numeric coercion (`pd.to_numeric(..., errors='coerce')`, `float(...)`) is
modelled over `Rat` with an explicit decimal parser; a value that does not
parse coerces to `none`, exactly like pandas turning it into NaN.  String
primitives (`lower`, `strip`, `split(',')`, substring test, whitespace
removal) are given as structurally recursive functions over `List Char` so
that every definition evaluates by `decide` / `rfl`.
-/

/-! ## String primitives -/

/-- Python `str.lower()` (character-wise lowering). -/
def lowerStr (s : String) : String :=
  String.mk (s.data.map Char.toLower)

/-- Python `str.strip()`: drop leading and trailing whitespace. -/
def stripStr (s : String) : String :=
  String.mk (((s.data.dropWhile Char.isWhitespace).reverse.dropWhile
    Char.isWhitespace).reverse)

/-- Helper for splitting: accumulates the current piece (reversed). -/
def splitSepAux (sep : Char) : List Char → List Char → List String
  | [], cur => [String.mk cur.reverse]
  | c :: cs, cur =>
    if c = sep then String.mk cur.reverse :: splitSepAux sep cs []
    else splitSepAux sep cs (c :: cur)

/-- Python `str.split(',')`: split on every comma, keeping empty pieces. -/
def splitComma (s : String) : List String :=
  splitSepAux ',' s.data []

/-- Does the character list `pre` begin the character list `l`? -/
def beginsWith : List Char → List Char → Bool
  | [], _ => true
  | _ :: _, [] => false
  | a :: as, b :: bs => a == b && beginsWith as bs

/-- All suffixes of a character list, longest first. -/
def tailsList : List Char → List (List Char)
  | [] => [[]]
  | c :: cs => (c :: cs) :: tailsList cs

/-- Python `needle in hay` on strings: substring containment. -/
def strContains (hay needle : String) : Bool :=
  (tailsList hay.data).any (fun t => beginsWith needle.data t)

/-- Python `re.sub(r'\s+', '', s.lower())`: lowercase, then remove all
whitespace.  Used to decide issue-name equivalence when merging. -/
def normName (s : String) : String :=
  String.mk ((s.data.map Char.toLower).filter (fun c => !c.isWhitespace))

/-! ## Numeric coercion (`pd.to_numeric(..., errors='coerce')`, `float`) -/

/-- Accumulate the value of a run of decimal digits (fails on a
non-digit). -/
def digitsGo : List Char → Nat → Option Nat
  | [], acc => some acc
  | c :: cs, acc =>
    if c.isDigit then digitsGo cs (acc * 10 + (c.toNat - 48)) else none

/-- Parse a non-empty run of decimal digits into its value and length. -/
def digitsVal : List Char → Option (Nat × Nat)
  | [] => none
  | l => (digitsGo l 0).map (fun v => (v, l.length))

/-- Parse an unsigned decimal numeral, optionally with a fractional part
(`"12"`, `"12.5"`).  Anything else fails, mirroring a coercion error. -/
def parseUnsigned (l : List Char) : Option Rat :=
  match splitSepAux '.' l [] with
  | [intPart] => (digitsVal intPart.data).map (fun p => (p.1 : Rat))
  | [intPart, fracPart] =>
    match digitsVal intPart.data, digitsVal fracPart.data with
    | some i, some f => some ((i.1 : Rat) + (f.1 : Rat) / ((10 : Rat) ^ f.2))
    | _, _ => none
  | _ => none

/-- Numeric coercion of a textual cell: optional sign, then an unsigned
decimal numeral.  `none` models NaN / a raised conversion error. -/
def parseNum? (s : String) : Option Rat :=
  match s.data with
  | '-' :: rest => (parseUnsigned rest).map (fun q => -q)
  | l => parseUnsigned l

/-! ## SemRush audit table (`load_semrush_data` output) -/

/-- One cell of the SemRush export: a numeric value, a textual value, or a
missing value (NaN). -/
inductive Cell where
  | num : Rat → Cell
  | str : String → Cell
  | na : Cell
deriving DecidableEq, Repr

/-- Result of `pd.to_numeric(cell, errors='coerce')`: numbers pass through,
text is parsed, anything non-numeric coerces to `none` (NaN). -/
def Cell.toNum? : Cell → Option Rat
  | .num q => some q
  | .str s => parseNum? s
  | .na => none

/-- A cell "flags" its row for an issue iff its numeric coercion is `> 0`
(the mask `pd.to_numeric(df[col], errors='coerce') > 0`). -/
def Cell.flagged (c : Cell) : Bool :=
  match c.toNum? with
  | some q => decide (0 < q)
  | none => false

/-- One row of the SemRush export: the `Page URL` identity cell plus one
cell per issue column, parallel to the table's column list. -/
structure SRow where
  pageURL : String
  cells : List Cell
deriving DecidableEq, Repr

/-- The loaded SemRush export: the issue-column names and the page rows. -/
structure SemrushTable where
  cols : List String
  rows : List SRow
deriving DecidableEq, Repr

/-- Index of the first occurrence of a column name. -/
def idxOf? : List String → String → Option Nat
  | [], _ => none
  | c :: cs, x => if c = x then some 0 else (idxOf? cs x).map (· + 1)

/-- The cell of row `r` in column `col` (missing column / short row reads
as NaN). -/
def SRow.cell (r : SRow) (cols : List String) (col : String) : Cell :=
  match idxOf? cols col with
  | some i => r.cells.getD i Cell.na
  | none => Cell.na

/-- Page URLs of the rows flagged by column `col`
(`semrush_data[mask]['Page URL'].tolist()` for that single column). -/
def flaggedURLs (t : SemrushTable) (col : String) : List String :=
  (t.rows.filter (fun r => (r.cell t.cols col).flagged)).map SRow.pageURL

/-! ## `get_affected_urls_by_issue` (`app/main.py`) -/

/-- Python `for col in semrush_data.columns: if col.lower() ==
issue_name.lower(): matching_column = col; break`. -/
def findMatchingColumn : List String → String → Option String
  | [], _ => none
  | c :: cs, name =>
    if lowerStr c = lowerStr name then some c else findMatchingColumn cs name

/-- Embeds `get_affected_urls_by_issue` from `app/main.py`: find the first
column whose lowered name equals the lowered issue name; if none, return
`[]`; otherwise return the `Page URL` values of the rows whose cell in that
column coerces to a numeric value `> 0`. -/
def get_affected_urls_by_issue (issue_name : String) (t : SemrushTable) :
    List String :=
  match findMatchingColumn t.cols issue_name with
  | none => []
  | some col => flaggedURLs t col

theorem findMatchingColumn_eq_find (cols : List String) (name : String) :
    findMatchingColumn cols name =
      cols.find? (fun c => lowerStr c = lowerStr name) := by
  induction cols with
  | nil => rfl
  | cons c cs ih =>
    by_cases h : lowerStr c = lowerStr name
    · simp [findMatchingColumn, List.find?, h]
    · simp [findMatchingColumn, List.find?, h, ih]

/-- C1: for every SemRush audit table and issue name, URL attribution takes
the first column whose name equals the issue name under case-insensitive
exact comparison, and returns the `Page URL` values of exactly those rows
whose value in that column coerces to a numeric value strictly greater than
zero (non-numeric or missing values count as not flagged), in the table's
row order; if no column matches, it returns the empty list. -/
theorem get_affected_urls_first_ci_column (issue_name : String)
    (t : SemrushTable) :
    get_affected_urls_by_issue issue_name t =
      match t.cols.find? (fun c => lowerStr c = lowerStr issue_name) with
      | none => []
      | some col =>
        (t.rows.filter (fun r =>
          match (r.cell t.cols col).toNum? with
          | some q => decide (0 < q)
          | none => false)).map SRow.pageURL := by
  unfold get_affected_urls_by_issue
  rw [findMatchingColumn_eq_find]
  cases t.cols.find? (fun c => lowerStr c = lowerStr issue_name) with
  | none => rfl
  | some col =>
    simp only [flaggedURLs]
    congr 1

/-! ## Mapping table (`load_mapping_data` output) -/

/-- One row of the static mapping table.  The nullable
`Issue category - SemRush` cell is an `Option String` (`none` models a
missing / NaN cell); the remaining cells are the loaded strings. -/
structure MappingRow where
  issueName : String
  issueType : String
  category : Option String
  description : String
  howToFix : String
  sfName : String
  sfType : String
  sfPriority : String
  sfDescription : String
  sfHowToFix : String
deriving DecidableEq

/-! ## `process_semrush_categories` (`app/utils/data_loader.py`) -/

/-- Python `for category in categories: if category and category !=
'Uncategorized': expanded_rows.append(new_row)` where `new_row` is a copy
of the source row with only the category cell replaced. -/
def expandLoop (row : MappingRow) : List String → List MappingRow
  | [] => []
  | category :: rest =>
    if category != "" && category != "Uncategorized" then
      { row with category := some category } :: expandLoop row rest
    else expandLoop row rest

/-- Per-row body of `process_semrush_categories`: when the category cell is
present and not `'NA'`, split it on commas, strip each piece and run the
append loop; otherwise contribute nothing. -/
def expandRow (row : MappingRow) : List MappingRow :=
  match row.category with
  | some cell =>
    if cell != "NA" then expandLoop row ((splitComma cell).map stripStr)
    else []
  | none => []

/-- Embeds `process_semrush_categories` from `app/utils/data_loader.py`:
the expanded rows of all input rows, in input order. -/
def process_semrush_categories : List MappingRow → List MappingRow
  | [] => []
  | row :: rest => expandRow row ++ process_semrush_categories rest

/-- Expansion as the frozen claim words it: one output row per
comma-separated entry of the cell, trimmed, in order, with entries that are
empty or `'Uncategorized'` after trimming dropped, and all other fields
unchanged.  (No special case for a cell equal to `'NA'`.) -/
def expandRowClaim (row : MappingRow) : List MappingRow :=
  match row.category with
  | none => []
  | some cell =>
    (((splitComma cell).map stripStr).filter
      (fun e => e != "" && e != "Uncategorized")).map
      (fun e => { row with category := some e })

/-- Expansion as amended: additionally, a whole cell that is missing or
exactly `'NA'` is skipped and contributes zero expanded rows. -/
def expandRowAmended (row : MappingRow) : List MappingRow :=
  match row.category with
  | none => []
  | some cell =>
    if cell = "NA" then []
    else
      (((splitComma cell).map stripStr).filter
        (fun e => e != "" && e != "Uncategorized")).map
        (fun e => { row with category := some e })

theorem expandLoop_eq_filter_map (row : MappingRow) (l : List String) :
    expandLoop row l =
      (l.filter (fun e => e != "" && e != "Uncategorized")).map
        (fun e => { row with category := some e }) := by
  induction l with
  | nil => rfl
  | cons e rest ih =>
    by_cases h : (e != "" && e != "Uncategorized") = true
    · simp [expandLoop, List.filter, h, ih]
    · simp [expandLoop, List.filter, h, ih]

/-- A mapping row used in counterexamples: its category cell is exactly
`'NA'`. -/
def exRowNA : MappingRow :=
  ⟨"Broken internal links", "Error", some "NA", "d", "f",
   "NA", "", "", "", ""⟩

/-- Counterexample to C3 as frozen: on a row whose category cell is exactly
`'NA'`, the code skips the whole cell and produces zero rows, while the
claimed description (one row per comma-separated entry, dropping only empty
and `'Uncategorized'` entries) produces one row with category `'NA'`. -/
theorem process_semrush_NA_cell_cex :
    process_semrush_categories [exRowNA] ≠
      (([exRowNA].map expandRowClaim).flatten) := by decide

/-- C3 (amended): for every mapping table, category expansion produces, for
each input row, one output row per comma-separated entry of its
source-categories cell, in left-to-right order, with the entry trimmed and
all other fields unchanged; entries empty or `'Uncategorized'` after
trimming are dropped, and additionally a cell that is missing or exactly
`'NA'` is skipped whole, contributing zero expanded rows. -/
theorem process_semrush_expansion (df : List MappingRow) :
    process_semrush_categories df = (df.map expandRowAmended).flatten := by
  induction df with
  | nil => rfl
  | cons row rest ih =>
    simp only [process_semrush_categories, List.map_cons, List.flatten, ih]
    congr 1
    unfold expandRow expandRowAmended
    cases hc : row.category with
    | none => rfl
    | some cell =>
      by_cases h : cell = "NA"
      · simp [h]
      · simp [h, expandLoop_eq_filter_map]

/-- C9: expanding a mapping row whose category cell is a single already
trimmed non-empty category other than `'Uncategorized'` and `'NA'` yields
the same single row unchanged. -/
theorem process_semrush_single_idempotent (row : MappingRow) (c : String)
    (hc : row.category = some c) (hsplit : splitComma c = [c])
    (htrim : stripStr c = c) (h1 : c ≠ "") (h2 : c ≠ "Uncategorized")
    (h3 : c ≠ "NA") :
    process_semrush_categories [row] = [row] := by
  cases row with
  | mk n ty cat d f sn st sp sd sf =>
    simp only at hc
    subst hc
    simp [process_semrush_categories, expandRow, expandLoop, hsplit, htrim,
      h1, h2, h3]

/-- A single-category mapping row for the idempotence witness. -/
def exRowLinks : MappingRow :=
  ⟨"Broken internal links", "Error", some "Links", "d", "f",
   "Broken links", "Issue", "High", "sd", "sf"⟩

theorem process_semrush_single_idempotent_witness :
    process_semrush_categories [exRowLinks] = [exRowLinks] :=
  process_semrush_single_idempotent exRowLinks "Links" rfl (by decide)
    (by decide) (by decide) (by decide) (by decide)

/-! ## `get_matched_issues` (`app/utils/ui/comparison_tab.py`) -/

/-- Embeds `get_matched_issues`: rows whose SemRush and ScreamingFrog issue
names are both different from the sentinel `'NA'`. -/
def get_matched_issues (mapping_data : List MappingRow) : List MappingRow :=
  mapping_data.filter (fun r => r.issueName != "NA" && r.sfName != "NA")

/-- The `Total Mapped Issues` metric of `display_summary_metrics`. -/
def total_mapped_issues (mapping_data : List MappingRow) : Nat :=
  (get_matched_issues mapping_data).length

/-- The `Issues Found in Both Tools` metric of `display_summary_metrics`:
matched rows whose ScreamingFrog issue name is not `'NA'`. -/
def issues_found_in_both (mapping_data : List MappingRow) : Nat :=
  ((get_matched_issues mapping_data).filter (fun r => r.sfName != "NA")).length

/-- C7: the matched-issue comparison returns exactly the rows with both the
source and the target issue name different from `'NA'`, and the reported
`Issues Found in Both Tools` count equals the reported
`Total Mapped Issues` count. -/
theorem matched_issues_invariant (mapping_data : List MappingRow) :
    (∀ r, r ∈ get_matched_issues mapping_data ↔
      r ∈ mapping_data ∧ r.issueName ≠ "NA" ∧ r.sfName ≠ "NA") ∧
    issues_found_in_both mapping_data = total_mapped_issues mapping_data := by
  constructor
  · intro r
    simp [get_matched_issues, List.mem_filter]
  · unfold issues_found_in_both total_mapped_issues
    have h : (get_matched_issues mapping_data).filter
        (fun r => r.sfName != "NA") = get_matched_issues mapping_data := by
      apply List.filter_eq_self.mpr
      intro r hr
      have := (List.mem_filter.mp hr).2
      simp only [Bool.and_eq_true] at this
      exact this.2
    rw [h]

/-! ## `load_sf_issues` (`app/utils/data_loader.py`) -/

/-- One raw row of the Screaming Frog issues overview, before the percent
conversion; the two categorical cells are nullable. -/
structure SFRowRaw where
  issueName : String
  issueType : Option String
  priority : Option String
  urls : Nat
  pctOfTotal : String
  description : String
  howToFix : String
deriving DecidableEq

/-- A loaded Screaming Frog issues row: the percent field is numeric and
the categorical cells are filled with `'Uncategorized'` when missing. -/
structure SFRow where
  issueName : String
  issueType : String
  priority : String
  urls : Nat
  pctOfTotal : Rat
  description : String
  howToFix : String
deriving DecidableEq

/-- Python `df['% of Total'].str.replace(',', '.')` on one cell. -/
def commaToDot (s : String) : String :=
  String.mk (s.data.map (fun c => if c = ',' then '.' else c))

/-- Conversion of one percent cell: decimal-comma text to a number; `none`
models the `astype(float)` conversion error. -/
def convertPct (s : String) : Option Rat :=
  parseNum? (commaToDot s)

/-- Row-by-row body of `load_sf_issues`: converts the percent column and
fills the categorical columns; any conversion failure aborts the whole
load (the raised exception is caught and the loader yields `none`). -/
def load_sf_rows : List SFRowRaw → Option (List SFRow)
  | [] => some []
  | r :: rest =>
    match convertPct r.pctOfTotal with
    | none => none
    | some q =>
      match load_sf_rows rest with
      | none => none
      | some tail =>
        some (⟨r.issueName, r.issueType.getD "Uncategorized",
               r.priority.getD "Uncategorized", r.urls, q,
               r.description, r.howToFix⟩ :: tail)

/-- Embeds `load_sf_issues` from `app/utils/data_loader.py`: `none` models
`return None` after the caught exception. -/
def load_sf_issues (rows : List SFRowRaw) : Option (List SFRow) :=
  load_sf_rows rows

/-- The gate in `main`: tabs (and with them all reconciliation) only run
when both loaders produced a table
(`if semrush_data is not None and sf_issues is not None`). -/
def reconciliation_runs (semrush_data : Option SemrushTable)
    (sf_issues : Option (List SFRow)) : Bool :=
  semrush_data.isSome && sf_issues.isSome

/-- A raw SF row whose percent cell is the decimal-comma text `'12,5'`. -/
def sfRawGood : SFRowRaw :=
  ⟨"Response Time", some "Warning", some "Medium", 4, "12,5", "d", "f"⟩

/-- A raw SF row whose percent cell is the non-convertible text `'abc'`. -/
def sfRawBad : SFRowRaw :=
  ⟨"Response Time", some "Warning", some "Medium", 4, "abc", "d", "f"⟩

/-- C8: the target-tool loader converts each percent cell from
decimal-comma text to a number (`'12,5'` becomes `12.5`); if any cell is
non-convertible (such as `'abc'`) the loader yields no table at all
(returns `none` instead of raising), and the `main` gate then does not run
downstream reconciliation. -/
theorem load_sf_issues_error_handling :
    (∀ rows : List SFRowRaw,
      (load_sf_issues rows = none ↔
        ∃ r ∈ rows, convertPct r.pctOfTotal = none)) ∧
    load_sf_issues [sfRawGood] =
      some [⟨"Response Time", "Warning", "Medium", 4, (25 : Rat) / 2,
             "d", "f"⟩] ∧
    load_sf_issues [sfRawBad] = none ∧
    (∀ semrush_data : Option SemrushTable,
      reconciliation_runs semrush_data none = false) := by
  refine ⟨?_, ?_, by decide, ?_⟩
  · intro rows
    induction rows with
    | nil => simp [load_sf_issues, load_sf_rows]
    | cons r rest ih =>
      cases hc : convertPct r.pctOfTotal with
      | none =>
        constructor
        · intro _
          exact ⟨r, List.mem_cons_self r rest, hc⟩
        · intro _
          simp [load_sf_issues, load_sf_rows, hc]
      | some q =>
        cases hrest : load_sf_rows rest with
        | none =>
          constructor
          · intro _
            obtain ⟨x, hx, hxc⟩ := ih.mp hrest
            exact ⟨x, List.mem_cons_of_mem r hx, hxc⟩
          · intro _
            simp [load_sf_issues, load_sf_rows, hc, hrest]
        | some tail =>
          constructor
          · intro h
            exfalso
            simp [load_sf_issues, load_sf_rows, hc, hrest] at h
          · rintro ⟨x, hx, hxc⟩
            rcases List.mem_cons.mp hx with rfl | hx2
            · rw [hc] at hxc
              exact Option.noConfusion hxc
            · have h2 : load_sf_issues rest = none := ih.mpr ⟨x, hx2, hxc⟩
              rw [show load_sf_issues rest = load_sf_rows rest from rfl,
                hrest] at h2
              exact Option.noConfusion h2
  · rw [show load_sf_issues [sfRawGood] =
      some [⟨"Response Time", "Warning", "Medium", 4,
             ((12 : Nat) : Rat) + ((5 : Nat) : Rat) / ((10 : Rat) ^ (1 : Nat)),
             "d", "f"⟩] from rfl]
    simp only [Option.some.injEq, List.cons.injEq, SFRow.mk.injEq]
    norm_num
  · intro semrush_data
    simp [reconciliation_runs]

theorem load_sf_issues_error_handling_witness :
    load_sf_issues [sfRawGood, sfRawBad] = none :=
  (load_sf_issues_error_handling.1 [sfRawGood, sfRawBad]).mpr
    ⟨sfRawBad, by decide, by decide⟩

/-! ## `get_category_stats` (`app/main.py`) -/

/-- The `{'Issues': _, 'Warnings': _, 'Notices': _}` dictionary. -/
structure CatStats where
  issues : Nat
  warnings : Nat
  notices : Nat
deriving DecidableEq

/-- Classification step of `get_category_stats`: lowercase the issue type;
if it contains `'error'` add the count to Issues, otherwise if it contains
`'warning'` add to Warnings, otherwise add to Notices. -/
def bucketAdd (stats : CatStats) (issue_type : String) (count : Nat) :
    CatStats :=
  if strContains (lowerStr issue_type) "error" then
    { stats with issues := stats.issues + count }
  else if strContains (lowerStr issue_type) "warning" then
    { stats with warnings := stats.warnings + count }
  else
    { stats with notices := stats.notices + count }

/-- The `for _, issue in category_issues.iterrows()` loop of
`get_category_stats`, carrying the stats, the `has_urls` flag and the
`processed_issues` set. -/
def gcsLoop (t : SemrushTable) :
    List MappingRow → CatStats → Bool → List String → CatStats × Bool
  | [], stats, has_urls, _ => (stats, has_urls)
  | issue :: rest, stats, has_urls, processed =>
    if issue.issueName ∈ processed then
      gcsLoop t rest stats has_urls processed
    else
      let affected := get_affected_urls_by_issue issue.issueName t
      if affected.isEmpty then gcsLoop t rest stats has_urls processed
      else
        gcsLoop t rest (bucketAdd stats issue.issueType affected.length) true
          (issue.issueName :: processed)

/-- Embeds `get_category_stats` from `app/main.py`. -/
def get_category_stats (category_issues : List MappingRow)
    (semrush_data : SemrushTable) : CatStats × Bool :=
  gcsLoop semrush_data category_issues ⟨0, 0, 0⟩ false []

/-- Keep only the first row bearing each issue name (later rows with an
already seen name are dropped). -/
def nubByName (seen : List String) : List MappingRow → List MappingRow
  | [] => []
  | r :: rest =>
    if r.issueName ∈ seen then nubByName seen rest
    else r :: nubByName (r.issueName :: seen) rest

/-- Specification-side aggregation: add each row's attributed-URL count to
the single bucket selected by its issue type. -/
def categoryBucketFold (t : SemrushTable) :
    List MappingRow → CatStats → CatStats
  | [], stats => stats
  | r :: rest, stats =>
    categoryBucketFold t rest
      (bucketAdd stats r.issueType
        (get_affected_urls_by_issue r.issueName t).length)

theorem gcsLoop_stats_eq (t : SemrushTable) (rows : List MappingRow)
    (stats : CatStats) (has_urls : Bool) (processed : List String) :
    (gcsLoop t rows stats has_urls processed).1 =
      categoryBucketFold t
        (nubByName processed (rows.filter
          (fun r => !(get_affected_urls_by_issue r.issueName t).isEmpty)))
        stats := by
  induction rows generalizing stats has_urls processed with
  | nil => rfl
  | cons r rest ih =>
    by_cases hp : r.issueName ∈ processed
    · by_cases ha : (get_affected_urls_by_issue r.issueName t).isEmpty
      · simp [gcsLoop, hp, ha, List.filter, ih]
      · simp only [List.filter_cons]
        simp [gcsLoop, hp, ha, nubByName, ih]
    · by_cases ha : (get_affected_urls_by_issue r.issueName t).isEmpty
      · simp [gcsLoop, hp, ha, List.filter, ih]
      · simp only [List.filter_cons]
        simp [gcsLoop, hp, ha, nubByName, categoryBucketFold, ih]

theorem bucketAdd_total (stats : CatStats) (ty : String) (count : Nat) :
    (bucketAdd stats ty count).issues + (bucketAdd stats ty count).warnings +
      (bucketAdd stats ty count).notices =
      stats.issues + stats.warnings + stats.notices + count := by
  unfold bucketAdd
  by_cases h1 : strContains (lowerStr ty) "error"
  · simp [h1]
    omega
  · by_cases h2 : strContains (lowerStr ty) "warning"
    · simp [h1, h2]
      omega
    · simp [h1, h2]
      omega

theorem categoryBucketFold_total (t : SemrushTable) (rows : List MappingRow)
    (stats : CatStats) :
    (categoryBucketFold t rows stats).issues +
      (categoryBucketFold t rows stats).warnings +
      (categoryBucketFold t rows stats).notices =
      stats.issues + stats.warnings + stats.notices +
        (rows.map
          (fun r => (get_affected_urls_by_issue r.issueName t).length)).sum := by
  induction rows generalizing stats with
  | nil => simp [categoryBucketFold]
  | cons r rest ih =>
    simp only [categoryBucketFold, List.map_cons, List.sum_cons, ih,
      bucketAdd_total]
    omega

/-- C4: `get_category_stats` counts each issue name at most once per call
(only the first row bearing a name contributes), and every issue whose
attributed URL list is non-empty adds its URL count to exactly one bucket:
a type containing `'error'` (case-insensitively) adds to Issues, otherwise
one containing `'warning'` adds to Warnings, otherwise to Notices — so the
three buckets together sum to the attributed counts of the distinct flagged
names. -/
theorem get_category_stats_counts_each_name_once
    (category_issues : List MappingRow) (t : SemrushTable) :
    (get_category_stats category_issues t).1 =
      categoryBucketFold t
        (nubByName [] (category_issues.filter
          (fun r => !(get_affected_urls_by_issue r.issueName t).isEmpty)))
        ⟨0, 0, 0⟩ ∧
    (get_category_stats category_issues t).1.issues +
      (get_category_stats category_issues t).1.warnings +
      (get_category_stats category_issues t).1.notices =
      ((nubByName [] (category_issues.filter
          (fun r => !(get_affected_urls_by_issue r.issueName t).isEmpty))).map
        (fun r => (get_affected_urls_by_issue r.issueName t).length)).sum := by
  have h := gcsLoop_stats_eq t category_issues ⟨0, 0, 0⟩ false []
  refine ⟨h, ?_⟩
  show (get_category_stats category_issues t).1.issues + _ + _ = _
  unfold get_category_stats
  rw [h, categoryBucketFold_total]
  simp

theorem gcsLoop_has_urls_eq (t : SemrushTable) (rows : List MappingRow)
    (stats : CatStats) (has_urls : Bool) (processed : List String) :
    (gcsLoop t rows stats has_urls processed).2 =
      (has_urls || rows.any (fun r =>
        !(decide (r.issueName ∈ processed)) &&
          !(get_affected_urls_by_issue r.issueName t).isEmpty)) := by
  induction rows generalizing stats has_urls processed with
  | nil => simp [gcsLoop]
  | cons r rest ih =>
    by_cases hp : r.issueName ∈ processed
    · simp [gcsLoop, hp, ih]
    · by_cases ha : (get_affected_urls_by_issue r.issueName t).isEmpty
      · simp [gcsLoop, hp, ha, ih]
      · simp [gcsLoop, hp, ha, ih]

/-! ## `display_semrush_issues` (`app/utils/ui/semrush_tab.py`) -/

/-- One issue card rendered inside a category expander. -/
structure RenderedIssue where
  issueName : String
  issueType : String
  affectedURLs : List String
deriving DecidableEq

/-- One rendered category expander: its label carries the category name and
the three bucket counts, its body the issue cards. -/
structure RenderedCategory where
  category : String
  stats : CatStats
  issues : List RenderedIssue
deriving DecidableEq

/-- The inner `for _, issue in category_issues.iterrows()` display loop:
skip issues already displayed (in any category), skip issues with no
affected URLs, otherwise render a card and mark the name displayed. -/
def renderIssues (t : SemrushTable) :
    List MappingRow → List String → List RenderedIssue × List String
  | [], displayed => ([], displayed)
  | issue :: rest, displayed =>
    if issue.issueName ∈ displayed then renderIssues t rest displayed
    else
      let affected := get_affected_urls_by_issue issue.issueName t
      if affected.isEmpty then renderIssues t rest displayed
      else
        let res := renderIssues t rest (issue.issueName :: displayed)
        (⟨issue.issueName, issue.issueType, affected⟩ :: res.1, res.2)

/-- The `for category in sorted(filtered['Issue category - SemRush']
.unique())` loop: skip the `'Uncategorized'` sentinel, compute the category
statistics, and render the category only when `has_urls` is true. -/
def displayLoop (filtered : List MappingRow) (t : SemrushTable) :
    List String → List String → List RenderedCategory
  | [], _ => []
  | category :: rest, displayed =>
    if category = "Uncategorized" then displayLoop filtered t rest displayed
    else
      let slice := filtered.filter (fun r => r.category == some category)
      let res := get_category_stats slice t
      if res.2 then
        let rendered := renderIssues t slice displayed
        ⟨category, res.1, rendered.1⟩ :: displayLoop filtered t rest rendered.2
      else displayLoop filtered t rest displayed

/-- Comparison of strings by code point, as Python `sorted` orders them. -/
def strLtB : List Char → List Char → Bool
  | [], [] => false
  | [], _ :: _ => true
  | _ :: _, [] => false
  | a :: as, b :: bs =>
    if a.toNat < b.toNat then true
    else if b.toNat < a.toNat then false
    else strLtB as bs

/-- Insertion step of the sort used to model Python `sorted`. -/
def insertSorted (x : String) : List String → List String
  | [] => [x]
  | y :: ys => if strLtB y.data x.data then y :: insertSorted x ys else x :: y :: ys

/-- Python `sorted` on a list of strings (insertion sort; stable). -/
def sortStrings : List String → List String
  | [] => []
  | x :: xs => insertSorted x (sortStrings xs)

/-- Pandas `Series.unique()`: first occurrence of each value, in order. -/
def uniqueFirst : List String → List String → List String
  | [], _ => []
  | c :: cs, seen =>
    if c ∈ seen then uniqueFirst cs seen else c :: uniqueFirst cs (c :: seen)

/-- Embeds `display_semrush_issues` from `app/utils/ui/semrush_tab.py`:
iterate the sorted distinct categories of the filtered mapping rows
(missing cells dropped), rendering only categories whose statistics carry
`has_urls = true`. -/
def display_semrush_issues (filtered : List MappingRow)
    (t : SemrushTable) : List RenderedCategory :=
  displayLoop filtered t
    (sortStrings (uniqueFirst (filtered.filterMap (fun r => r.category)) []))
    []

theorem displayLoop_category_has_urls (filtered : List MappingRow)
    (t : SemrushTable) (cats : List String) (displayed : List String)
    (rc : RenderedCategory) (hmem : rc ∈ displayLoop filtered t cats displayed) :
    (get_category_stats (filtered.filter
      (fun r => r.category == some rc.category)) t).2 = true := by
  induction cats generalizing displayed with
  | nil => exact absurd hmem (by simp [displayLoop])
  | cons c rest ih =>
    by_cases hc : c = "Uncategorized"
    · simp only [displayLoop, if_pos hc] at hmem
      exact ih _ hmem
    · simp only [displayLoop, if_neg hc] at hmem
      cases hz : (get_category_stats (filtered.filter
          (fun r => r.category == some c)) t).2 with
      | false =>
        rw [if_neg (by simp [hz])] at hmem
        exact ih _ hmem
      | true =>
        rw [if_pos (by simp [hz])] at hmem
        rcases List.mem_cons.mp hmem with rfl | h2
        · exact hz
        · exact ih _ h2

/-- C5: `get_category_stats` returns `has_urls = false` exactly when every
mapping row in the slice attributes zero URLs, and a category whose slice
has `has_urls = false` is suppressed from the rendered category view
entirely, even if it has mapping rows. -/
theorem category_stats_has_urls_suppression :
    (∀ (category_issues : List MappingRow) (t : SemrushTable),
      ((get_category_stats category_issues t).2 = false ↔
        ∀ r ∈ category_issues,
          get_affected_urls_by_issue r.issueName t = [])) ∧
    (∀ (filtered : List MappingRow) (t : SemrushTable) (c : String),
      (get_category_stats (filtered.filter
        (fun r => r.category == some c)) t).2 = false →
      ∀ rc ∈ display_semrush_issues filtered t, rc.category ≠ c) := by
  constructor
  · intro category_issues t
    unfold get_category_stats
    rw [gcsLoop_has_urls_eq]
    simp [List.any_eq_false, List.isEmpty_iff]
  · intro filtered t c hfalse rc hrc heq
    have := displayLoop_category_has_urls filtered t _ _ rc hrc
    rw [heq] at this
    rw [hfalse] at this
    exact Bool.noConfusion this

/-- Mapping rows and a table for the category-statistics witnesses: the
category `Meta` attributes no URLs and must be suppressed. -/
def wRowA : MappingRow :=
  ⟨"Broken Links", "Error", some "Links", "d", "f", "NA", "", "", "", ""⟩

/-- Second witness mapping row, in category `Meta`, with no matching audit
column. -/
def wRowB : MappingRow :=
  ⟨"Missing meta", "Warning", some "Meta", "d", "f", "NA", "", "", "", ""⟩

/-- Witness audit table: one issue column, one flagged page. -/
def wTable : SemrushTable :=
  ⟨["Broken Links"], [⟨"u1", [Cell.num 1]⟩]⟩

theorem category_stats_suppression_witness :
    (⟨"Links", ⟨1, 0, 0⟩, [⟨"Broken Links", "Error", ["u1"]⟩]⟩ :
      RenderedCategory).category ≠ "Meta" :=
  category_stats_has_urls_suppression.2 [wRowA, wRowB] wTable "Meta"
    (by decide) _ (by decide)

theorem get_category_stats_counts_once_witness :
    (get_category_stats [wRowA, wRowA] wTable).1 =
      categoryBucketFold wTable
        (nubByName [] ([wRowA, wRowA].filter
          (fun r => !(get_affected_urls_by_issue r.issueName wTable).isEmpty)))
        ⟨0, 0, 0⟩ :=
  (get_category_stats_counts_each_name_once [wRowA, wRowA] wTable).1

/-! ## `create_issues_stats_chart` (`app/utils/visualizations.py`) -/

/-- One value of the `issue_to_columns` dictionary: the matching audit
columns collected so far plus the issue type and category stored when the
key was created. -/
structure IssueAgg where
  columns : List String
  itype : String
  icategory : Option String
deriving DecidableEq

/-- One record of `issue_dict`: the data behind one bar of the chart. -/
structure IssueStat where
  issueName : String
  issueType : String
  issueCategory : Option String
  urlCount : Nat
deriving DecidableEq

/-- The issue-type filter row predicate
(`filtered_mapping['Issue Type - SemRush'].isin(filtered_types)`). -/
def typeFilterKeep (filtered_types : List String) (r : MappingRow) : Bool :=
  decide (r.issueType ∈ filtered_types)

/-- The category filter row predicate (`any(cat.strip() in
filtered_categories for cat in str(cats).split(',') if pd.notna(cats))`);
a missing cell gives an empty generator, hence `false`. -/
def categoryFilterKeep (filtered_categories : List String)
    (r : MappingRow) : Bool :=
  match r.category with
  | some cats =>
    (splitComma cats).any (fun cat =>
      decide (stripStr cat ∈ filtered_categories))
  | none => false

/-- The two mapping-table filters applied at the top of
`create_issues_stats_chart`; an empty list models `None` / an empty
selection (`if filtered_types:` truthiness). -/
def filteredMapping (mapping_data : List MappingRow)
    (filtered_types filtered_categories : List String) : List MappingRow :=
  let m1 :=
    if filtered_types.isEmpty then mapping_data
    else mapping_data.filter (typeFilterKeep filtered_types)
  if filtered_categories.isEmpty then m1
  else m1.filter (categoryFilterKeep filtered_categories)

/-- The `if pd.isna(issue_name) or issue_name == 'NA' or ... : continue`
guard (the NaN disjuncts concern cells the model keeps as strings). -/
def nameTypeNA (r : MappingRow) : Bool :=
  r.issueName == "NA" || r.issueType == "NA"

/-- The second category check inside the first pass: with a non-empty
category filter and a present category cell other than `'NA'`, skip the row
when none of its split-and-stripped categories is in the filter. -/
def secondCatSkip (filtered_categories : List String)
    (r : MappingRow) : Bool :=
  !filtered_categories.isEmpty &&
    (match r.category with
     | some c =>
       c != "NA" &&
         !((splitComma c).map stripStr).any (fun cat =>
           decide (cat ∈ filtered_categories))
     | none => false)

/-- A row survives the two `continue` guards of the first pass. -/
def survivesGuards (filtered_categories : List String)
    (r : MappingRow) : Bool :=
  !nameTypeNA r && !secondCatSkip filtered_categories r

/-- All audit columns matching an issue name case-insensitively
(`[col for col in semrush_data.columns if col.lower() ==
issue_name.lower()]`). -/
def matchingCols (cols : List String) (issue_name : String) : List String :=
  cols.filter (fun col => lowerStr col == lowerStr issue_name)

/-- The `for existing_key in issue_to_columns: ... break` key search: the
first entry whose key has the same whitespace-free case-folded name. -/
def lookupNorm (acc : List (String × IssueAgg)) (nn : String) :
    Option (String × IssueAgg) :=
  acc.find? (fun p => normName p.1 == nn)

/-- The `issue_to_columns[issue_key]['columns'].extend(matching_columns)`
update: append the new columns to the first entry with the given
normalized name, in place. -/
def extendFirst (nn : String) (newCols : List String) :
    List (String × IssueAgg) → List (String × IssueAgg)
  | [] => []
  | (k, d) :: rest =>
    if normName k == nn then
      (k, ⟨d.columns ++ newCols, d.itype, d.icategory⟩) :: rest
    else (k, d) :: extendFirst nn newCols rest

/-- The first pass of `create_issues_stats_chart`: build the insertion
ordered `issue_to_columns` dictionary. -/
def firstPass (cols : List String) (filtered_categories : List String) :
    List MappingRow → List (String × IssueAgg) → List (String × IssueAgg)
  | [], acc => acc
  | issue :: rest, acc =>
    if survivesGuards filtered_categories issue then
      let mc := matchingCols cols issue.issueName
      if mc.isEmpty then firstPass cols filtered_categories rest acc
      else
        match lookupNorm acc (normName issue.issueName) with
        | some _ =>
          firstPass cols filtered_categories rest
            (extendFirst (normName issue.issueName) mc acc)
        | none =>
          firstPass cols filtered_categories rest
            (acc ++ [(issue.issueName, ⟨mc, issue.issueType, issue.category⟩)])
    else firstPass cols filtered_categories rest acc

/-- The second pass: per entry, the set union of the URLs flagged by its
collected columns (a Python `set`, modelled as `dedup`), kept only when
non-empty. -/
def secondPass (t : SemrushTable) :
    List (String × IssueAgg) → List IssueStat
  | [] => []
  | (k, d) :: rest =>
    let urls := (d.columns.flatMap (fun col => flaggedURLs t col)).dedup
    if urls.isEmpty then secondPass t rest
    else ⟨k, d.itype, d.icategory, urls.length⟩ :: secondPass t rest

/-- Embeds the data computation of `create_issues_stats_chart` from
`app/utils/visualizations.py` (the trailing `sort_values` and the plotly
figure are presentation; an empty result models the `return None` branch). -/
def create_issues_stats_chart (semrush_data : SemrushTable)
    (mapping_data : List MappingRow)
    (filtered_types filtered_categories : List String) : List IssueStat :=
  secondPass semrush_data
    (firstPass semrush_data.cols filtered_categories
      (filteredMapping mapping_data filtered_types filtered_categories) [])

/-- Specification-side description: all matching audit columns contributed
by the guard-surviving rows whose issue name has the given whitespace-free
case-folded form, in row order. -/
def chartCollected (cols : List String) (filtered_categories : List String) :
    List MappingRow → String → List String
  | [], _ => []
  | r :: rest, nn =>
    if survivesGuards filtered_categories r && (normName r.issueName == nn) then
      matchingCols cols r.issueName ++
        chartCollected cols filtered_categories rest nn
    else chartCollected cols filtered_categories rest nn

/-- Specification-side description: the first guard-surviving mapping row
with the given normalized name and at least one matching audit column (the
row whose name, type and category the merged entry keeps). -/
def firstChartRow (cols : List String) (filtered_categories : List String) :
    List MappingRow → String → Option MappingRow
  | [], _ => none
  | r :: rest, nn =>
    if survivesGuards filtered_categories r && (normName r.issueName == nn) &&
        !(matchingCols cols r.issueName).isEmpty then some r
    else firstChartRow cols filtered_categories rest nn

theorem lookupNorm_extendFirst (acc : List (String × IssueAgg))
    (nn nn2 : String) (newCols : List String) :
    lookupNorm (extendFirst nn newCols acc) nn2 =
      if nn2 = nn then
        (lookupNorm acc nn).map
          (fun p => (p.1, ⟨p.2.columns ++ newCols, p.2.itype, p.2.icategory⟩))
      else lookupNorm acc nn2 := by
  induction acc with
  | nil => by_cases h : nn2 = nn <;> simp [extendFirst, lookupNorm, h]
  | cons p rest ih =>
    obtain ⟨k, d⟩ := p
    simp only [extendFirst, lookupNorm, List.find?]
    cases hkb : (normName k == nn) with
    | true =>
      have hk : normName k = nn := by simpa using hkb
      by_cases h2 : nn2 = nn
      · subst h2
        simp [hkb, hk]
      · have hk2 : (normName k == nn2) = false := by
          simp only [beq_eq_false_iff_ne, ne_eq, hk]
          exact fun he => h2 he.symm
        simp [hkb, hk2, h2]
    | false =>
      cases hk2 : (normName k == nn2) with
      | true =>
        have h2 : ¬ nn2 = nn := by
          have hEq : normName k = nn2 := by simpa using hk2
          rw [← hEq]
          simpa using hkb
        simp [hkb, hk2, h2]
      | false =>
        by_cases h2 : nn2 = nn
        · subst h2
          simp only [hkb, hk2, Bool.false_eq_true, if_false, List.find?,
            if_pos rfl]
          simpa [lookupNorm, List.find?, hkb, hk2] using ih
        · simp only [hkb, hk2, Bool.false_eq_true, if_false, List.find?]
          simpa [lookupNorm, List.find?, hkb, hk2, h2] using ih

theorem lookupNorm_append (acc : List (String × IssueAgg))
    (e : String × IssueAgg) (nn : String) :
    lookupNorm (acc ++ [e]) nn =
      match lookupNorm acc nn with
      | some x => some x
      | none => if normName e.1 == nn then some e else none := by
  induction acc with
  | nil =>
    cases he : (normName e.1 == nn) <;> simp [lookupNorm, List.find?, he]
  | cons p rest ih =>
    cases hp : (normName p.1 == nn) with
    | true => simp [lookupNorm, List.find?, hp]
    | false =>
      simp only [lookupNorm, List.cons_append, List.find?, hp] at ih ⊢
      exact ih

theorem firstPass_lookup (cols filtered_categories : List String)
    (rows : List MappingRow) (acc : List (String × IssueAgg)) (nn : String) :
    lookupNorm (firstPass cols filtered_categories rows acc) nn =
      match lookupNorm acc nn with
      | some p =>
        some (p.1, ⟨p.2.columns ++ chartCollected cols filtered_categories rows nn,
          p.2.itype, p.2.icategory⟩)
      | none =>
        (firstChartRow cols filtered_categories rows nn).map
          (fun r => (r.issueName,
            ⟨chartCollected cols filtered_categories rows nn,
             r.issueType, r.category⟩)) := by
  induction rows generalizing acc with
  | nil =>
    cases hl : lookupNorm acc nn with
    | none => simp [firstPass, chartCollected, firstChartRow, hl]
    | some p => simp [firstPass, chartCollected, firstChartRow, hl]
  | cons r rest ih =>
    cases hs : survivesGuards filtered_categories r with
    | false =>
      simp only [firstPass, hs, Bool.false_eq_true, if_false]
      rw [ih]
      simp [chartCollected, firstChartRow, hs]
    | true =>
      by_cases hme : (matchingCols cols r.issueName).isEmpty = true
      · have hm : matchingCols cols r.issueName = [] := by
          simpa [List.isEmpty_iff] using hme
        simp only [firstPass, hs, if_pos rfl, if_true, hme]
        rw [ih]
        cases hν : (normName r.issueName == nn) with
        | true =>
          simp [chartCollected, firstChartRow, hs, hν, hm, hme]
        | false =>
          simp [chartCollected, firstChartRow, hs, hν, hm, hme]
      · simp only [firstPass, hs, if_pos rfl, if_true, hme,
          Bool.false_eq_true, if_false]
        cases hl0 : lookupNorm acc (normName r.issueName) with
        | some p0 =>
          simp only [hl0, if_true]
          rw [ih, lookupNorm_extendFirst]
          cases hν : (normName r.issueName == nn) with
          | true =>
            have hνe : nn = normName r.issueName := by
              have := (beq_iff_eq.mp hν)
              exact this.symm
            rw [if_pos hνe, hl0]
            subst hνe
            simp [chartCollected, firstChartRow, hs, hν, hl0,
              List.append_assoc]
          | false =>
            have hνe : ¬ nn = normName r.issueName := by
              intro he
              rw [he] at hν
              simp at hν
            rw [if_neg hνe]
            simp [chartCollected, firstChartRow, hs, hν]
        | none =>
          simp only [hl0, if_true]
          rw [ih, lookupNorm_append]
          cases hν : (normName r.issueName == nn) with
          | true =>
            have hνe : nn = normName r.issueName := (beq_iff_eq.mp hν).symm
            subst hνe
            rw [hl0]
            simp [chartCollected, firstChartRow, hs, hν, hme]
          | false =>
            have hνe : ¬ normName r.issueName = nn := by simpa using hν
            cases hl : lookupNorm acc nn with
            | some q =>
              simp only [hl]
              simp [chartCollected, firstChartRow, hs, hν]
            | none =>
              simp only [hl, hν]
              simp [chartCollected, firstChartRow, hs, hν]

/-- The normalized names of the dictionary keys, in insertion order. -/
def keyNorms (acc : List (String × IssueAgg)) : List String :=
  acc.map (fun p => normName p.1)

theorem keyNorms_extendFirst (nn : String) (newCols : List String)
    (acc : List (String × IssueAgg)) :
    keyNorms (extendFirst nn newCols acc) = keyNorms acc := by
  induction acc with
  | nil => rfl
  | cons p rest ih =>
    obtain ⟨k, d⟩ := p
    cases hk : (normName k == nn) with
    | true => simp [extendFirst, keyNorms, hk]
    | false =>
      simp only [extendFirst, hk, Bool.false_eq_true, if_false, keyNorms,
        List.map_cons]
      rw [show List.map (fun p => normName p.1) (extendFirst nn newCols rest) =
        List.map (fun p => normName p.1) rest from ih]

theorem lookupNorm_eq_none (acc : List (String × IssueAgg)) (nn : String) :
    lookupNorm acc nn = none ↔ nn ∉ keyNorms acc := by
  simp only [lookupNorm, List.find?_eq_none, keyNorms, List.mem_map]
  constructor
  · rintro h ⟨p, hp, hpe⟩
    exact absurd (by simpa using hpe) (by simpa using h p hp)
  · intro h p hp
    simp only [beq_iff_eq]
    intro he
    exact h ⟨p, hp, he⟩

theorem firstPass_keyNorms_nodup (cols filtered_categories : List String)
    (rows : List MappingRow) (acc : List (String × IssueAgg))
    (h : (keyNorms acc).Nodup) :
    (keyNorms (firstPass cols filtered_categories rows acc)).Nodup := by
  induction rows generalizing acc with
  | nil => exact h
  | cons r rest ih =>
    cases hs : survivesGuards filtered_categories r with
    | false =>
      simp only [firstPass, hs, Bool.false_eq_true, if_false]
      exact ih acc h
    | true =>
      by_cases hme : (matchingCols cols r.issueName).isEmpty = true
      · simp only [firstPass, hs, if_pos rfl, if_true, hme]
        exact ih acc h
      · simp only [firstPass, hs, if_pos rfl, if_true, hme,
          Bool.false_eq_true, if_false]
        cases hl0 : lookupNorm acc (normName r.issueName) with
        | some p0 =>
          simp only [hl0, if_true]
          exact ih _ (by rw [keyNorms_extendFirst]; exact h)
        | none =>
          simp only [hl0, if_true]
          refine ih _ ?_
          have hnotin : normName r.issueName ∉ keyNorms acc :=
            (lookupNorm_eq_none acc _).mp hl0
          have hkn : keyNorms (acc ++
              [(r.issueName, ⟨matchingCols cols r.issueName, r.issueType,
                r.category⟩)]) = keyNorms acc ++ [normName r.issueName] := by
            simp [keyNorms]
          rw [hkn]
          simp only [List.nodup_append, List.nodup_cons,
            List.not_mem_nil, not_false_iff, List.nodup_nil, and_true,
            true_and]
          refine ⟨h, ?_⟩
          intro a ha hb
          rcases List.mem_singleton.mp hb with rfl
      -- close disjointness: a ∈ keyNorms acc and a = normName r.issueName
          exact hnotin ha

theorem mem_lookupNorm (acc : List (String × IssueAgg))
    (e : String × IssueAgg) (h : (keyNorms acc).Nodup) (he : e ∈ acc) :
    lookupNorm acc (normName e.1) = some e := by
  induction acc with
  | nil => exact absurd he (List.not_mem_nil e)
  | cons p rest ih =>
    rcases List.mem_cons.mp he with rfl | hrest
    · simp [lookupNorm, List.find?]
    · have hmem : normName e.1 ∈ keyNorms rest :=
        List.mem_map.mpr ⟨e, hrest, rfl⟩
      have hne : ¬(normName p.1 = normName e.1) := by
        intro heq
        have hni : normName p.1 ∉ keyNorms rest := by
          have := h
          simp only [keyNorms, List.map_cons, List.nodup_cons] at this
          exact this.1
        rw [heq] at hni
        exact hni hmem
      have htail : (keyNorms rest).Nodup := by
        have := h
        simp only [keyNorms, List.map_cons, List.nodup_cons] at this
        exact this.2
      simp only [lookupNorm, List.find?,
        show (normName p.1 == normName e.1) = false from by simp [hne]]
      exact ih htail hrest

theorem secondPass_mem (t : SemrushTable) (assoc : List (String × IssueAgg))
    (s : IssueStat) (hs : s ∈ secondPass t assoc) :
    ∃ p ∈ assoc, s = ⟨p.1, p.2.itype, p.2.icategory,
      ((p.2.columns.flatMap (fun col => flaggedURLs t col)).dedup).length⟩ := by
  induction assoc with
  | nil => exact absurd hs (by simp [secondPass])
  | cons p rest ih =>
    obtain ⟨k, d⟩ := p
    by_cases he :
        ((d.columns.flatMap (fun col => flaggedURLs t col)).dedup).isEmpty = true
    · simp only [secondPass, he, if_pos rfl, if_true] at hs
      obtain ⟨q, hq, hqe⟩ := ih hs
      exact ⟨q, List.mem_cons_of_mem _ hq, hqe⟩
    · simp only [secondPass, he, Bool.false_eq_true, if_false] at hs
      rcases List.mem_cons.mp hs with rfl | h2
      · exact ⟨(k, d), List.mem_cons_self _ _, rfl⟩
      · obtain ⟨q, hq, hqe⟩ := ih h2
        exact ⟨q, List.mem_cons_of_mem _ hq, hqe⟩

/-- Scenario B, first mapping row: `'Broken Links'`. -/
def bRow1 : MappingRow :=
  ⟨"Broken Links", "Error", some "Links", "d", "f", "NA", "", "", "", ""⟩

/-- Scenario B, second mapping row: `'broken links'` (case-different). -/
def bRow2 : MappingRow :=
  ⟨"broken links", "error", some "Links, Crawlability", "d", "f",
   "NA", "", "", "", ""⟩

/-- A merged row with a different type and category, to exercise
first-row-wins metadata. -/
def cRow2 : MappingRow :=
  ⟨"broken links", "Warning", some "Crawlability", "d", "f",
   "NA", "", "", "", ""⟩

/-- Scenario B audit table: columns `'Broken Links'` and `'BROKEN LINKS'`
flag the URL sets `[u1, u2]` and `[u2, u3]`. -/
def bTable : SemrushTable :=
  ⟨["Broken Links", "BROKEN LINKS"],
   [⟨"u1", [Cell.num 1, Cell.num 0]⟩,
    ⟨"u2", [Cell.num 1, Cell.num 1]⟩,
    ⟨"u3", [Cell.num 0, Cell.num 1]⟩]⟩

/-- C2: every issue surviving the filtered issue-by-URL-count aggregation
reports the number of distinct URLs flagged by the audit columns matching
any of its merged mapping rows (a URL flagged by several equivalent columns
counts once); in particular, for mapping rows `'Broken Links'` /
`'broken links'` matching columns `'Broken Links'` and `'BROKEN LINKS'`
that flag `[u1, u2]` and `[u2, u3]`, the reported count is `3`, not `4`. -/
theorem create_issues_stats_distinct_urls :
    (∀ (semrush_data : SemrushTable) (mapping_data : List MappingRow)
       (filtered_types filtered_categories : List String) (s : IssueStat),
      s ∈ create_issues_stats_chart semrush_data mapping_data filtered_types
          filtered_categories →
      s.urlCount =
        ((chartCollected semrush_data.cols filtered_categories
            (filteredMapping mapping_data filtered_types filtered_categories)
            (normName s.issueName)).flatMap
          (fun col => flaggedURLs semrush_data col)).toFinset.card) ∧
    create_issues_stats_chart bTable [bRow1, bRow2] [] [] =
      [⟨"Broken Links", "Error", some "Links", 3⟩] := by
  constructor
  · intro t m ft fc s hs
    obtain ⟨p, hp, rfl⟩ := secondPass_mem t _ s hs
    have hnod :
        (keyNorms (firstPass t.cols fc (filteredMapping m ft fc) [])).Nodup :=
      firstPass_keyNorms_nodup t.cols fc (filteredMapping m ft fc) []
        (by simp [keyNorms])
    have hlk := mem_lookupNorm _ p hnod hp
    rw [firstPass_lookup] at hlk
    simp only [lookupNorm, List.find?] at hlk
    cases hfr : firstChartRow t.cols fc (filteredMapping m ft fc)
        (normName p.1) with
    | none =>
      rw [hfr] at hlk
      exact absurd hlk (by simp)
    | some r =>
      rw [hfr] at hlk
      simp only [Option.map_some'] at hlk
      injection hlk with hpe
      have hcol : chartCollected t.cols fc (filteredMapping m ft fc)
          (normName p.1) = p.2.columns :=
        congrArg (fun x => x.2.columns) hpe
      show (p.2.columns.flatMap fun col => flaggedURLs t col).dedup.length =
        ((chartCollected t.cols fc (filteredMapping m ft fc)
            (normName p.1)).flatMap
          fun col => flaggedURLs t col).toFinset.card
      rw [hcol, List.card_toFinset]
  · decide

theorem create_issues_stats_distinct_urls_witness :
    (⟨"Broken Links", "Error", some "Links", 3⟩ : IssueStat).urlCount =
      ((chartCollected bTable.cols []
          (filteredMapping [bRow1, bRow2] [] [])
          (normName (⟨"Broken Links", "Error", some "Links", 3⟩ :
            IssueStat).issueName)).flatMap
        (fun col => flaggedURLs bTable col)).toFinset.card :=
  create_issues_stats_distinct_urls.1 bTable [bRow1, bRow2] [] [] _
    (by decide)

/-- C10: the name, type and category an aggregated issue reports are those
of the first guard-surviving mapping row (in mapping-table order) with the
same whitespace-free case-folded name and at least one matching audit
column; later merged rows contribute only their columns. -/
theorem create_issues_stats_first_row_fields :
    ∀ (semrush_data : SemrushTable) (mapping_data : List MappingRow)
      (filtered_types filtered_categories : List String) (s : IssueStat),
      s ∈ create_issues_stats_chart semrush_data mapping_data filtered_types
          filtered_categories →
      (firstChartRow semrush_data.cols filtered_categories
          (filteredMapping mapping_data filtered_types filtered_categories)
          (normName s.issueName)).map
        (fun r => (r.issueName, r.issueType, r.category)) =
        some (s.issueName, s.issueType, s.issueCategory) := by
  intro t m ft fc s hs
  obtain ⟨p, hp, rfl⟩ := secondPass_mem t _ s hs
  have hnod :
      (keyNorms (firstPass t.cols fc (filteredMapping m ft fc) [])).Nodup :=
    firstPass_keyNorms_nodup t.cols fc (filteredMapping m ft fc) []
      (by simp [keyNorms])
  have hlk := mem_lookupNorm _ p hnod hp
  rw [firstPass_lookup] at hlk
  simp only [lookupNorm, List.find?] at hlk
  cases hfr : firstChartRow t.cols fc (filteredMapping m ft fc)
      (normName p.1) with
  | none =>
    rw [hfr] at hlk
    exact absurd hlk (by simp)
  | some r =>
    rw [hfr] at hlk
    simp only [Option.map_some'] at hlk
    injection hlk with hpe
    have hname : r.issueName = p.1 := congrArg Prod.fst hpe
    have htype : r.issueType = p.2.itype :=
      congrArg (fun x => x.2.itype) hpe
    have hcat : r.category = p.2.icategory :=
      congrArg (fun x => x.2.icategory) hpe
    show some (r.issueName, r.issueType, r.category) =
      some (p.1, p.2.itype, p.2.icategory)
    rw [hname, htype, hcat]

theorem create_issues_stats_first_row_fields_witness :
    (firstChartRow bTable.cols [] (filteredMapping [bRow1, cRow2] [] [])
        (normName (⟨"Broken Links", "Error", some "Links", 3⟩ :
          IssueStat).issueName)).map
      (fun r => (r.issueName, r.issueType, r.category)) =
      some ("Broken Links", "Error", some "Links") :=
  create_issues_stats_first_row_fields bTable [bRow1, cRow2] [] []
    ⟨"Broken Links", "Error", some "Links", 3⟩ (by decide)

theorem categoryFilterKeep_iff (fc : List String) (r : MappingRow) :
    categoryFilterKeep fc r = true ↔
      ∃ c, r.category = some c ∧
        ∃ piece ∈ splitComma c, stripStr piece ∈ fc := by
  cases hc : r.category with
  | none => simp [categoryFilterKeep, hc]
  | some cats => simp [categoryFilterKeep, hc, List.any_eq_true]

/-- The OR-across-subcategories example row (category cell
`'Links, Crawlability'`). -/
def fRow : MappingRow :=
  ⟨"Broken Links", "Error", some "Links, Crawlability", "d", "f",
   "NA", "", "", "", ""⟩

/-- C6: in the chart aggregation, a non-empty issue-type filter keeps
exactly the mapping rows whose source issue type is a member of the filter
set (exact match), and a non-empty category filter keeps exactly the rows
at least one of whose comma-split, trimmed categories is a member (OR
across subcategories); in particular a row with the category cell
`'Links, Crawlability'` survives the category filter `['Crawlability']`. -/
theorem chart_filter_semantics :
    (∀ (mapping_data : List MappingRow)
       (filtered_types filtered_categories : List String) (r : MappingRow),
      r ∈ filteredMapping mapping_data filtered_types filtered_categories ↔
        r ∈ mapping_data ∧
          (filtered_types ≠ [] → r.issueType ∈ filtered_types) ∧
          (filtered_categories ≠ [] → ∃ c, r.category = some c ∧
            ∃ piece ∈ splitComma c,
              stripStr piece ∈ filtered_categories)) ∧
    fRow ∈ filteredMapping [fRow] [] ["Crawlability"] := by
  constructor
  · intro m ft fc r
    unfold filteredMapping
    by_cases hft : ft.isEmpty
    · have hft2 : ft = [] := by simpa [List.isEmpty_iff] using hft
      subst hft2
      by_cases hfc : fc.isEmpty
      · have hfc2 : fc = [] := by simpa [List.isEmpty_iff] using hfc
        subst hfc2
        simp
      · have hfc2 : ¬(fc = []) := by simpa [List.isEmpty_iff] using hfc
        simp [hfc, List.mem_filter, categoryFilterKeep_iff, hfc2]
    · have hft2 : ¬(ft = []) := by simpa [List.isEmpty_iff] using hft
      by_cases hfc : fc.isEmpty
      · have hfc2 : fc = [] := by simpa [List.isEmpty_iff] using hfc
        subst hfc2
        simp [hft, List.mem_filter, typeFilterKeep, hft2]
      · have hfc2 : ¬(fc = []) := by simpa [List.isEmpty_iff] using hfc
        simp only [hft, hfc, Bool.false_eq_true, if_false,
          List.mem_filter, typeFilterKeep, categoryFilterKeep_iff,
          decide_eq_true_eq, ne_eq, hft2, hfc2, not_false_iff,
          forall_true_left, and_assoc]
  · decide

theorem chart_filter_semantics_witness :
    fRow ∈ filteredMapping [fRow] [] ["Crawlability"] :=
  chart_filter_semantics.2

theorem matched_issues_invariant_witness :
    issues_found_in_both [exRowLinks] = total_mapped_issues [exRowLinks] :=
  (matched_issues_invariant [exRowLinks]).2
